import Mathlib

/-!
Verification development for the resolution-independence stylesheet plugin
(`src/lib/resolution-independence.js`).

The plugin rewrites length measurements authored in a source unit (default
`px`) into a resolution-independent unit (default `rem`), clamping small
values to a floor.  JavaScript numbers are modelled as rationals (every
value the engine actually manipulates is produced from finite decimal
literals, so the rational model is exact on the engine's domain); JavaScript
strings are modelled as Lean strings, with the string primitives used by the
source (`split`, `slice`, `match`, `parseFloat`, number-to-string coercion)
re-implemented below over `List Char` so that everything computes in the
kernel.
-/

namespace RIPlugin

/- The rational primitives are irreducible by default, which blocks
evaluation of the model inside proofs; restore default reducibility for the
scope of this development. -/
attribute [local semireducible] Rat.add Rat.mul Rat.sub Rat.inv

/-! ### Character classes used by the source's regular expression -/

/-- Characters matched by `\s` in the source's regular expression
(ASCII whitespace; the engine is only ever fed ASCII stylesheet text). -/
def isSpaceJS (c : Char) : Bool :=
  c = ' ' || c = '\t' || c = '\n' || c = '\r' || c = '\x0b' || c = '\x0c'

/-- Characters matched by `[^\s\.!]` in the first regex alternative. -/
def isTailChar (c : Char) : Bool :=
  !(isSpaceJS c || c = '.' || c = '!')

/-! ### The token scan `value.match(/\d+[\.]?\d+[^\s\.!]*|[!]*[^\s!]+/g)`

The two alternatives are implemented with the backtracking semantics of the
JavaScript regex engine: greedy quantifiers, first alternative preferred,
first success wins.  The first alternative `\d+[\.]?\d+[^\s\.!]*` succeeds
at a position exactly when it starts with at least two digits, or with one
digit followed by a dot and a digit; greedy backtracking then commits the
match shapes implemented below. -/

/-- Match of the first regex alternative `\d+[\.]?\d+[^\s\.!]*` at the head
of `cs`, returning the matched characters. -/
def matchAlt1 (cs : List Char) : Option (List Char) :=
  let ds := cs.takeWhile Char.isDigit
  let rest := cs.drop ds.length
  if 2 ≤ ds.length then
    -- all digits consumed by the two `\d+`; then an optional `.digits` run
    some (match rest with
      | '.' :: c :: _ =>
        if c.isDigit then
          let ds2 := (rest.drop 1).takeWhile Char.isDigit
          let after := rest.drop (1 + ds2.length)
          ds ++ '.' :: ds2 ++ after.takeWhile isTailChar
        else ds ++ rest.takeWhile isTailChar
      | _ => ds ++ rest.takeWhile isTailChar)
  else if ds.length = 1 then
    -- a single digit only matches as `\d+ . \d+`, needing `.digit` next
    match rest with
    | '.' :: c :: _ =>
      if c.isDigit then
        let ds2 := (rest.drop 1).takeWhile Char.isDigit
        let after := rest.drop (1 + ds2.length)
        some (ds ++ '.' :: ds2 ++ after.takeWhile isTailChar)
      else none
    | _ => none
  else none

/-- Match of the second regex alternative `[!]*[^\s!]+` at the head of
`cs`. -/
def matchAlt2 (cs : List Char) : Option (List Char) :=
  let bs := cs.takeWhile (fun c => c = '!')
  let rest := cs.drop bs.length
  let run := rest.takeWhile (fun c => !(isSpaceJS c || c = '!'))
  if run.isEmpty then none else some (bs ++ run)

/-- Match of the whole regular expression at the head of `cs`: the first
alternative is preferred. -/
def matchTok (cs : List Char) : Option (List Char) :=
  match matchAlt1 cs with
  | some t => some t
  | none => matchAlt2 cs

/-- Global scan: emit non-overlapping matches left to right, advancing one
character past positions where neither alternative matches.  Both
alternatives consume at least one character, so a fuel of one more than the
input length is never exhausted. -/
def tokenizeAux : ℕ → List Char → List (List Char)
  | 0, _ => []
  | fuel + 1, cs =>
    match cs with
    | [] => []
    | _ :: rest =>
      match matchTok cs with
      | some tok => tok :: tokenizeAux fuel (cs.drop tok.length)
      | none => tokenizeAux fuel rest

/-- All matches of the source's regular expression in `s`, in order
(`String.prototype.match` with the `g` flag; an empty list models the
`null` result). -/
def tokenize (s : String) : List String :=
  (tokenizeAux (s.data.length + 1) s.data).map String.mk

/-! ### Number-to-string coercion

JavaScript renders the finite decimals the engine produces (clamped inputs,
`minUnitSize` floors, and `toFixed`-rounded quotients) in plain positional
notation without trailing fractional zeros; `numToString` reproduces that
rendering for rationals with a terminating decimal expansion. -/

/-- Decimal digits of a natural number, most significant first. -/
def natDigitsAux : ℕ → ℕ → List Char
  | 0, _ => []
  | fuel + 1, n =>
    if n < 10 then [Nat.digitChar n]
    else natDigitsAux fuel (n / 10) ++ [Nat.digitChar (n % 10)]

/-- Decimal digits of a natural number, most significant first. -/
def natDigits (n : ℕ) : List Char :=
  natDigitsAux (n + 1) n

/-- Drop trailing `'0'` characters. -/
def stripTrailZeros (cs : List Char) : List Char :=
  (cs.reverse.dropWhile (fun c => c = '0')).reverse

/-- Multiplicity of `p` in `n` (0 when `p < 2` or `n = 0`). -/
def countFactorAux (p : ℕ) : ℕ → ℕ → ℕ
  | 0, _ => 0
  | fuel + 1, n =>
    if 2 ≤ p ∧ n ≠ 0 ∧ n % p = 0 then countFactorAux p fuel (n / p) + 1 else 0

/-- Multiplicity of `p` in `n`. -/
def countFactor (p n : ℕ) : ℕ :=
  countFactorAux p n n

/-- Positional decimal rendering of a nonnegative rational with a
terminating decimal expansion (denominator of the form `2^a * 5^b`). -/
def numToStringNN (q : ℚ) : String :=
  let k := max (countFactor 2 q.den) (countFactor 5 q.den)
  let N := (q.num * 10 ^ k / (q.den : ℤ)).toNat
  let ip := N / 10 ^ k
  let fr := N % 10 ^ k
  if fr = 0 then ⟨natDigits ip⟩
  else ⟨natDigits ip ++ '.' ::
    stripTrailZeros (List.replicate (k - (natDigits fr).length) '0' ++ natDigits fr)⟩

/-- JavaScript number-to-string coercion on the engine's domain of
terminating decimals. -/
def numToString (q : ℚ) : String :=
  if q < 0 then ⟨'-' :: (numToStringNN (-q)).data⟩ else numToStringNN q

/-- Number-to-string coercion where the number may be `NaN`
(modelled as `none`). -/
def numOptToString : Option ℚ → String
  | none => "NaN"
  | some q => numToString q

/-! ### `parseFloat` -/

/-- Value of a list of decimal digit characters. -/
def digitsToNat (ds : List Char) : ℕ :=
  ds.foldl (fun a c => 10 * a + (c.toNat - 48)) 0

/-- JavaScript `parseFloat`: longest numeric prefix after optional
whitespace — optional sign, digits, optional fraction, optional exponent.
`none` models `NaN`.  (The `Infinity` literal is not modelled; no token the
engine scans can contain it as a numeric prefix of a unit-suffixed
measurement in the configurations considered here.) -/
def jsParseFloat (s : String) : Option ℚ :=
  let cs := s.data.dropWhile isSpaceJS
  let sgn : ℚ := match cs with
    | '-' :: _ => -1
    | _ => 1
  let cs1 : List Char := match cs with
    | '-' :: t => t
    | '+' :: t => t
    | _ => cs
  let ip := cs1.takeWhile Char.isDigit
  let cs2 := cs1.drop ip.length
  let fp : List Char := match cs2 with
    | '.' :: t => t.takeWhile Char.isDigit
    | _ => []
  let cs3 : List Char := match cs2 with
    | '.' :: t => t.drop ((t.takeWhile Char.isDigit).length)
    | _ => cs2
  if ip.isEmpty && fp.isEmpty then none
  else
    let mant : ℚ := sgn * ((digitsToNat ip : ℚ) + (digitsToNat fp : ℚ) / 10 ^ fp.length)
    let e : ℤ := match cs3 with
      | c :: t =>
        if c = 'e' ∨ c = 'E' then
          let esgn : ℤ := match t with
            | '-' :: _ => -1
            | _ => 1
          let t1 : List Char := match t with
            | '-' :: r => r
            | '+' :: r => r
            | _ => t
          let eds := t1.takeWhile Char.isDigit
          if eds.isEmpty then 0 else esgn * (digitsToNat eds : ℤ)
        else 0
      | [] => 0
    some (mant * (10 : ℚ) ^ e)

/-! ### Remaining string primitives -/

/-- JavaScript `s.slice(-n)`: the last `n` characters, except that
`slice(-0)` is `slice(0)`, the whole string. -/
def jsSliceNeg (s : String) (n : ℕ) : String :=
  if n = 0 then s else ⟨s.data.drop (s.data.length - n)⟩

/-- Accumulator recursion behind `splitComma`. -/
def splitCommaAux : List Char → List Char → List (List Char)
  | [], cur => [cur.reverse]
  | c :: t, cur =>
    if c = ',' then cur.reverse :: splitCommaAux t [] else splitCommaAux t (c :: cur)

/-- JavaScript `s.split(',')`: always at least one segment; `""` splits to
`[""]`. -/
def splitComma (s : String) : List String :=
  (splitCommaAux s.data []).map String.mk

/-- JavaScript `Array.prototype.join(sep)`. -/
def joinSep (sep : String) : List String → String
  | [] => ""
  | x :: xs =>
    match xs with
    | [] => x
    | _ => x ++ sep ++ joinSep sep xs

/-! ### Configuration (`ResolutionIndependencePlugin.prototype` fields and
`configure`) -/

/-- The plugin's private fields: the seven configurable parameters plus the
derived `_minScaleFactor` ratio computed by `configure`. -/
structure Config where
  baseSize : ℚ
  riUnit : String
  unit : String
  absoluteUnit : String
  minUnitSize : ℚ
  minSize : ℚ
  precision : ℕ
  minScaleFactor : ℚ
deriving DecidableEq

/-- A partial options object: `none` models an `undefined` field. -/
structure Options where
  baseSize : Option ℚ := none
  riUnit : Option String := none
  unit : Option String := none
  absoluteUnit : Option String := none
  minUnitSize : Option ℚ := none
  minSize : Option ℚ := none
  precision : Option ℕ := none
deriving DecidableEq

/-- `configure(opts)`: each field supplied in the options overwrites the
previous value, each omitted field is kept, and the minimum scale factor is
recomputed from the new `minSize` and `baseSize`.  (An `undefined` `opts`
argument behaves like the all-`none` options object.) -/
def configure (prev : Config) (opts : Options) : Config :=
  let baseSize := opts.baseSize.getD prev.baseSize
  let riUnit := opts.riUnit.getD prev.riUnit
  let unit := opts.unit.getD prev.unit
  let absoluteUnit := opts.absoluteUnit.getD prev.absoluteUnit
  let minUnitSize := opts.minUnitSize.getD prev.minUnitSize
  let minSize := opts.minSize.getD prev.minSize
  let precision := opts.precision.getD prev.precision
  { baseSize, riUnit, unit, absoluteUnit, minUnitSize, minSize, precision,
    minScaleFactor := minSize / baseSize }

/-- The prototype's default field values.  The prototype carries no
`_minScaleFactor`; `configure` always recomputes it before first use, so the
seed value of that field is irrelevant and is set to the recomputed value. -/
def protoConfig : Config :=
  { baseSize := 24, riUnit := "rem", unit := "px", absoluteUnit := "apx",
    minUnitSize := 1, minSize := 16, precision := 5, minScaleFactor := 16 / 24 }

/-- The plugin constructor: start from the prototype defaults and apply the
supplied options. -/
def mkPlugin (opts : Options) : Config :=
  configure protoConfig opts

/-- The all-`undefined` options object. -/
def emptyOptions : Options := {}

/-- The configuration of a plugin constructed with no options. -/
def defaultConfig : Config :=
  mkPlugin emptyOptions

/-- The set of properties that can have comma-separated values
(`csvProps`). -/
def csvProps : List String :=
  ["background", "background-size", "background-position"]

/-! ### The conversion function -/

/-- The `{value, unit}` result object of `parseValueObject`. -/
structure ValueUnit where
  value : ℚ
  unit : String
deriving DecidableEq

/-- A unit descriptor: a numerator list of unit symbols plus a backup
symbol.  An absent or empty `backupUnit` is modelled as `""` (both are falsy
in every comparison the source performs). -/
structure UnitNode where
  numerator : List String
  backupUnit : String
deriving DecidableEq

/-- The source's unit extraction
`(unitNode && unitNode.numerator && unitNode.numerator.length &&
unitNode.numerator[0]) || unitNode.backupUnit`: position 0 of the numerator
when present and truthy (non-empty), otherwise the backup symbol. -/
def extractedUnit (un : UnitNode) : String :=
  match un.numerator with
  | [] => un.backupUnit
  | u :: _ => if u = "" then un.backupUnit else u

/-- Floor of a rational, computed from the reduced fraction (the
denominator is positive, so flooring division of the numerator by it is the
floor of the fraction). -/
def ratFloor (q : ℚ) : ℤ :=
  q.num.fdiv q.den

/-- `Number.prototype.toFixed(f)` followed by `parseFloat`, on the rational
model: per the ECMAScript specification `toFixed` renders the absolute
value rounded to the nearest multiple of `10^-f`, ties toward the larger
magnitude (the sign is split off first), i.e. round half away from zero. -/
def toFixedRound (x : ℚ) (f : ℕ) : ℚ :=
  (if x < 0 then -1 else 1) * (ratFloor (|x| * 10 ^ f + 1 / 2) : ℚ) / 10 ^ f

/-- `convertValue`: `parseFloat((value / this._baseSize).toFixed(this._precision))`. -/
def convertValue (cfg : Config) (value : ℚ) : ℚ :=
  toFixedRound (value / cfg.baseSize) cfg.precision

/-- `parseValueObject(value, unitNode)`: the structured conversion entry
point. -/
def parseValueObject (cfg : Config) (value : ℚ) (unitNode : UnitNode) : ValueUnit :=
  let unit := extractedUnit unitNode
  if unit = cfg.unit then
    -- the standard unit: scale, or clamp to the minimum unit size
    let scaledValue := |value * cfg.minScaleFactor|
    if scaledValue ≠ 0 ∧ scaledValue ≤ cfg.minUnitSize then
      { value := if |value| < cfg.minUnitSize then value
                 else cfg.minUnitSize * (if value < 0 then -1 else 1),
        unit := cfg.unit }
    else
      { value := convertValue cfg value, unit := cfg.riUnit }
  else if unit = cfg.absoluteUnit then
    -- the absolute unit: 1:1 relabel to the standard unit
    { value := value, unit := cfg.unit }
  else
    { value := value, unit := unit }

/-- `parseValueString(value)`: the string-form conversion entry point, for
measurements carrying value and unit in a single string.  A `parseFloat`
result of `NaN` makes `scaledValue` `NaN`, which is falsy, so the source
takes the scaling branch and `convertValue(NaN)` renders as `NaN`. -/
def parseValueString (cfg : Config) (value : String) : String :=
  if value ≠ "" ∧ jsSliceNeg value cfg.absoluteUnit.length = cfg.absoluteUnit then
    numOptToString (jsParseFloat value) ++ cfg.unit
  else if value ≠ "" ∧ jsSliceNeg value cfg.unit.length = cfg.unit then
    match jsParseFloat value with
    | none => "NaN" ++ cfg.riUnit
    | some v =>
      let scaledValue := |v * cfg.minScaleFactor|
      if scaledValue ≠ 0 ∧ scaledValue ≤ cfg.minUnitSize then
        if |v| < cfg.minUnitSize then numToString v ++ cfg.unit
        else numToString (cfg.minUnitSize * (if v < 0 then -1 else 1)) ++ cfg.unit
      else numToString (convertValue cfg v) ++ cfg.riUnit
  else value

/-- `parseString(ruleNode, stringValues)`: tokenize either the supplied
segment or — when the segment is absent or falsy (the empty string) — the
node's own string value, convert each token, and join with single spaces;
`none` models the `undefined` returned when the scan yields no tokens. -/
def parseString (cfg : Config) (nodeValue : String) (stringValues : Option String) :
    Option String :=
  let value := match stringValues with
    | some sv => if sv = "" then nodeValue else sv
    | none => nodeValue
  match tokenize value with
  | [] => none
  | toks => some (joinSep " " (toks.map (parseValueString cfg)))

/-! ### The value tree and the walker

A rule node carries an optional argument list (a CSS function call), a value
(number, string, or array of sub-nodes), and an optional unit descriptor.
The source mutates nodes in place; the model returns the rewritten node.
The mutual recursion of `processRuleNode`/`updateNode` is bounded by a fuel
argument; the wrappers pass one more than the node's size, which exceeds
the recursion depth, so the zero-fuel fallback is never reached. -/

mutual
inductive Val where
  | num (q : ℚ)
  | str (s : String)
  | arr (elems : List RuleNode)
inductive RuleNode where
  | mk (args : Option (List RuleNode)) (value : Val) (unit : Option UnitNode)
end

/-- The value of a rule node. -/
def RuleNode.value : RuleNode → Val
  | .mk _ v _ => v

/-- The argument list of a rule node. -/
def RuleNode.args : RuleNode → Option (List RuleNode)
  | .mk a _ _ => a

/-- The unit descriptor of a rule node. -/
def RuleNode.unitNode : RuleNode → Option UnitNode
  | .mk _ _ u => u

/-- `unitNode.numerator[0] = result.unit`: overwrite position 0 of the
numerator (assignment to index 0 of an empty JavaScript array creates the
element). -/
def setNumeratorHead (un : UnitNode) (u : String) : UnitNode :=
  { un with numerator := match un.numerator with
    | [] => [u]
    | _ :: t => u :: t }

/-- The string-valued part of `processRuleNode`: the comma-group path for
properties in `csvProps`, the whole-text path otherwise.  A segment whose
scan yields no tokens makes `parseString` return `undefined`, which string
concatenation renders as `"undefined"`; a falsy (empty) final result leaves
the original value in place. -/
def processStringValue (cfg : Config) (propName : String) (s : String) : String :=
  if propName ∈ csvProps then
    let parsed := (splitComma s).foldl
      (fun acc seg =>
        acc ++ (if acc = "" then "" else ", ") ++
          ((parseString cfg s (some seg)).getD "undefined"))
      ""
    if parsed = "" then s else parsed
  else
    match parseString cfg s none with
    | some p => p
    | none => s

mutual
def processRuleNodeF : ℕ → Config → String → RuleNode → RuleNode
  | 0, _, _, rn => rn
  | fuel + 1, cfg, propName, rn =>
    match rn with
    | .mk (some args) v u =>
      -- the value(s) of a CSS function call: update each argument
      .mk (some (args.map (updateNodeF fuel cfg propName))) v u
    | .mk none (.str s) u =>
      .mk none (.str (processStringValue cfg propName s)) u
    | .mk none v u =>
      -- a single value object
      updateNodeF fuel cfg propName (.mk none v u)
def updateNodeF : ℕ → Config → String → RuleNode → RuleNode
  | 0, _, _, rn => rn
  | fuel + 1, cfg, propName, .mk args v u =>
    -- an array value (mixed literal/substituted values): process each item
    let v1 : Val := match v with
      | .arr ns => .arr (ns.map (processRuleNodeF fuel cfg propName))
      | x => x
    match u with
    | some un =>
      match v1 with
      | .num q =>
        let r := parseValueObject cfg q un
        .mk args (.num r.value) (some (setNumeratorHead un r.unit))
      | x =>
        -- a unit descriptor accompanies a numeric magnitude in the tree;
        -- JavaScript's numeric coercion of other shapes is not modelled
        .mk args x (some un)
    | none =>
      .mk args (match v1 with
        | .str s => .str (parseValueString cfg s)
        -- a number's string form never ends in the unit suffix and an array
        -- coerces to "[object Object],…", so parseValueString returns both
        -- unchanged
        | x => x) none
end

mutual
/-- Size of a rule node, used as the recursion bound of the walker. -/
def ruleNodeSize : RuleNode → ℕ
  | .mk args v _ => 1 + argsSize args + valSize v
/-- Size of an optional argument list. -/
def argsSize : Option (List RuleNode) → ℕ
  | none => 0
  | some l => nodeListSize l
/-- Size of a list of rule nodes. -/
def nodeListSize : List RuleNode → ℕ
  | [] => 0
  | n :: t => 1 + ruleNodeSize n + nodeListSize t
/-- Size of a value. -/
def valSize : Val → ℕ
  | .arr ns => 1 + nodeListSize ns
  | _ => 1
end

/-- `processRuleNode(ruleNode)` with the current property name made
explicit. -/
def processRuleNode (cfg : Config) (propName : String) (rn : RuleNode) : RuleNode :=
  processRuleNodeF (ruleNodeSize rn + 1) cfg propName rn

/-- `updateNode(ruleNode)` with the current property name made explicit. -/
def updateNode (cfg : Config) (propName : String) (rn : RuleNode) : RuleNode :=
  updateNodeF (ruleNodeSize rn + 1) cfg propName rn

/-- A declaration node as seen by `visitDeclaration`: property name, inline
flag, and value subtree. -/
structure Declaration where
  name : String
  inline : Bool
  value : RuleNode

/-- `visitDeclaration(node)`: `ruleNode = node && !node.inline &&
node.value` — an inline declaration passes `false` downstream, where every
field access yields `undefined` and `updateNode`'s truthiness guard stops
all writes, so nothing is mutated; otherwise the value subtree is processed
in place. -/
def visitDeclaration (cfg : Config) (node : Declaration) : Declaration :=
  if node.inline then node
  else { node with value := processRuleNode cfg node.name node.value }

/-! ### Definitions taken from the claims' wording, for comparison with the
source-derived functions above -/

/-- Sign of a rational, as the claims use it. -/
def qSign (v : ℚ) : ℚ :=
  if v < 0 then -1 else if v = 0 then 0 else 1

/-- The scale-or-clamp rule exactly as the specification states it: with
`s = |v * minScaleFactor|`, if `s ≠ 0` and `s ≤ minUnitSize` then keep
`(v, unit)` when `|v| < minUnitSize` and clamp to
`(minUnitSize * sign v, unit)` otherwise; else scale to
`(v / baseSize` rounded to `precision` fractional digits`, riUnit)`. -/
def scaleOrClampSpec (cfg : Config) (v : ℚ) : ValueUnit :=
  let s := |v * cfg.minScaleFactor|
  if s ≠ 0 ∧ s ≤ cfg.minUnitSize then
    if |v| < cfg.minUnitSize then { value := v, unit := cfg.unit }
    else { value := cfg.minUnitSize * qSign v, unit := cfg.unit }
  else
    { value := toFixedRound (v / cfg.baseSize) cfg.precision, unit := cfg.riUnit }

/-- The comma-group behavior exactly as the specification states it: split
on `,`, run the string-tokenization rule on each segment independently
(leaving a segment with no tokens unchanged), and rejoin with `", "`. -/
def csvIndependentSpec (cfg : Config) (s : String) : String :=
  joinSep ", " ((splitComma s).map (fun seg =>
    match tokenize seg with
    | [] => seg
    | toks => joinSep " " (toks.map (parseValueString cfg))))

/-! ### Helper lemmas -/

theorem strExt {a b : String} (h : a.data = b.data) : a = b := by
  cases a
  cases b
  exact congrArg String.mk h

theorem strData_append (a b : String) : (a ++ b).data = a.data ++ b.data := by
  cases a
  cases b
  rfl

theorem str_ne_empty_iff {a : String} : a ≠ "" ↔ a.data ≠ [] := by
  constructor
  · intro h hd
    exact h (strExt (by simpa using hd))
  · intro h he
    exact h (by simp [he])

theorem str_append_ne_left {a : String} (b : String) (h : a ≠ "") : a ++ b ≠ "" := by
  rw [str_ne_empty_iff] at h ⊢
  simp [strData_append]
  intro h1 _
  exact h h1

theorem str_empty_append (s : String) : "" ++ s = s :=
  strExt (by simp [strData_append])

theorem str_append_empty (s : String) : s ++ "" = s :=
  strExt (by simp [strData_append])

theorem matchAlt1_some_ne_nil {cs t : List Char} (h : matchAlt1 cs = some t) :
    t ≠ [] := by
  rcases hds : cs.takeWhile Char.isDigit with - | ⟨d, ds1⟩
  · simp [matchAlt1, hds] at h
  · simp only [matchAlt1, hds, List.cons_append] at h
    split at h
    · rw [Option.some_inj] at h
      split at h
      · split at h <;> (subst h; simp)
      · subst h; simp
    · split at h
      · split at h
        · split at h
          · rw [Option.some_inj] at h; subst h; simp
          · exact absurd h (by simp)
        · exact absurd h (by simp)
      · exact absurd h (by simp)

theorem matchAlt2_some_ne_nil {cs t : List Char} (h : matchAlt2 cs = some t) :
    t ≠ [] := by
  simp only [matchAlt2] at h
  split at h
  · exact absurd h (by simp)
  next hrun =>
    rw [Option.some_inj] at h
    subst h
    simp only [ne_eq, List.append_eq_nil]
    rintro ⟨-, h2⟩
    exact hrun (by rw [h2]; rfl)

theorem matchTok_some_ne_nil {cs t : List Char} (h : matchTok cs = some t) :
    t ≠ [] := by
  unfold matchTok at h
  split at h
  next h1 => exact matchAlt1_some_ne_nil (h ▸ h1)
  next => exact matchAlt2_some_ne_nil h

theorem tokenizeAux_mem_ne_nil :
    ∀ (fuel : ℕ) (cs t : List Char), t ∈ tokenizeAux fuel cs → t ≠ [] := by
  intro fuel
  induction fuel with
  | zero => intro cs t h; simp [tokenizeAux] at h
  | succ fuel ih =>
    intro cs t h
    match cs with
    | [] => simp [tokenizeAux] at h
    | c :: rest =>
      rw [tokenizeAux] at h
      rcases hm : matchTok (c :: rest) with - | tok
      · rw [hm] at h
        exact ih rest t h
      · rw [hm] at h
        rcases List.mem_cons.mp h with h1 | h1
        · exact h1 ▸ matchTok_some_ne_nil hm
        · exact ih _ t h1

theorem tokenize_mem_ne_empty {s t : String} (h : t ∈ tokenize s) : t ≠ "" := by
  unfold tokenize at h
  rcases List.mem_map.mp h with ⟨l, hl, rfl⟩
  rw [str_ne_empty_iff]
  simpa using tokenizeAux_mem_ne_nil _ _ _ hl

theorem natDigits_ne_nil (n : ℕ) : natDigits n ≠ [] := by
  unfold natDigits natDigitsAux
  split
  · simp
  · simp

theorem numToString_ne_empty (q : ℚ) : numToString q ≠ "" := by
  unfold numToString
  split
  · rw [str_ne_empty_iff]
    simp
  · simp only [numToStringNN]
    split
    · rw [str_ne_empty_iff]
      exact natDigits_ne_nil _
    · rw [str_ne_empty_iff]
      simp

theorem numOptToString_ne_empty (o : Option ℚ) : numOptToString o ≠ "" := by
  cases o
  · simp [numOptToString]
  · exact numToString_ne_empty _

theorem parseValueString_ne_empty (cfg : Config) {t : String} (h : t ≠ "") :
    parseValueString cfg t ≠ "" := by
  unfold parseValueString
  split
  · exact str_append_ne_left _ (numOptToString_ne_empty _)
  · split
    · cases jsParseFloat t
      · exact str_append_ne_left _ (by rw [str_ne_empty_iff]; simp)
      · dsimp only
        split
        · split
          · exact str_append_ne_left _ (numToString_ne_empty _)
          · exact str_append_ne_left _ (numToString_ne_empty _)
        · exact str_append_ne_left _ (numToString_ne_empty _)
    · exact h

theorem joinSep_cons_ne_empty (sep : String) {x : String} (xs : List String)
    (h : x ≠ "") : joinSep sep (x :: xs) ≠ "" := by
  cases xs
  · exact h
  · exact str_append_ne_left _ (str_append_ne_left _ h)

theorem tokensJoin_some_ne_empty {cfg : Config} {v p : String}
    (h : (match tokenize v with
      | [] => (none : Option String)
      | toks => some (joinSep " " (toks.map (parseValueString cfg)))) = some p) :
    p ≠ "" := by
  rcases htk : tokenize v with - | ⟨t0, ts⟩
  · rw [htk] at h
    exact absurd h (by simp)
  · rw [htk] at h
    rw [Option.some_inj] at h
    subst h
    rw [List.map_cons]
    exact joinSep_cons_ne_empty _ _
      (parseValueString_ne_empty cfg (tokenize_mem_ne_empty (htk ▸ List.mem_cons_self t0 ts)))

theorem parseString_some_ne_empty {cfg : Config} {nv : String} {sv : Option String}
    {p : String} (h : parseString cfg nv sv = some p) : p ≠ "" := by
  unfold parseString at h
  exact tokensJoin_some_ne_empty h

theorem parseString_getD_ne_empty (cfg : Config) (nv : String) (sv : Option String) :
    (parseString cfg nv sv).getD "undefined" ≠ "" := by
  rcases h : parseString cfg nv sv with - | p
  · simp
  · simpa using parseString_some_ne_empty h

theorem csv_foldl_eq_joinSep_aux (f : String → String) :
    ∀ (l : List String) (acc : String), acc ≠ "" →
      l.foldl (fun a seg => a ++ (if a = "" then "" else ", ") ++ f seg) acc
        = acc ++ (if l.isEmpty then "" else ", " ++ joinSep ", " (l.map f)) := by
  intro l
  induction l with
  | nil => intro acc _; simp [str_append_empty]
  | cons x t ih =>
    intro acc hacc
    rw [List.foldl_cons, if_neg hacc,
      ih _ (str_append_ne_left _ (str_append_ne_left _ hacc))]
    rcases t with - | ⟨y, t'⟩ <;>
    · simp only [List.isEmpty_nil, if_pos, List.isEmpty_cons, List.map_cons,
        List.map_nil, if_neg Bool.false_ne_true, str_append_empty, joinSep]
      apply strExt
      simp [strData_append, List.append_assoc]

theorem csv_foldl_eq_joinSep (f : String → String) (hf : ∀ x, f x ≠ "")
    (x : String) (t : List String) :
    (x :: t).foldl (fun a seg => a ++ (if a = "" then "" else ", ") ++ f seg) ""
      = joinSep ", " ((x :: t).map f) := by
  rw [List.foldl_cons, if_pos rfl, str_append_empty, str_empty_append,
    csv_foldl_eq_joinSep_aux f t (f x) (hf x)]
  rcases t with - | ⟨y, t'⟩
  · simp [str_append_empty, joinSep]
  · simp only [List.isEmpty_cons, if_neg Bool.false_ne_true, List.map_cons, joinSep]
    apply strExt
    simp [strData_append, List.append_assoc]

theorem splitCommaAux_ne_nil : ∀ (cs cur : List Char), splitCommaAux cs cur ≠ [] := by
  intro cs
  induction cs with
  | nil => intro cur; simp [splitCommaAux]
  | cons c t ih =>
    intro cur
    rw [splitCommaAux]
    split
    · simp
    · exact ih _

theorem splitComma_ne_nil (s : String) : splitComma s ≠ [] := by
  unfold splitComma
  simpa using splitCommaAux_ne_nil s.data []

theorem parseString_indep {cfg : Config} {seg : String} (nv nv' : String)
    (h : seg ≠ "") :
    parseString cfg nv (some seg) = parseString cfg nv' (some seg) := by
  simp [parseString, if_neg h]

/-! ### The claims -/

/-- C1: for every finite number `v`, converting `(v, unit)` where the
extracted unit equals the configured source unit follows the scale-or-clamp
rule exactly: with `s = |v * minScaleFactor|`, if `s ≠ 0` and
`s ≤ minUnitSize` then the result is `(v, unit)` when `|v| < minUnitSize`
and `(minUnitSize * sign v, unit)` otherwise; else the result is
`(v / baseSize` rounded to `precision` fractional digits`, riUnit)`. -/
theorem sourceUnit_follows_scaleOrClamp (cfg : Config) (v : ℚ) (un : UnitNode)
    (h : extractedUnit un = cfg.unit) :
    parseValueObject cfg v un = scaleOrClampSpec cfg v := by
  unfold parseValueObject scaleOrClampSpec
  rw [h, if_pos rfl]
  dsimp only
  by_cases h1 : |v * cfg.minScaleFactor| ≠ 0 ∧ |v * cfg.minScaleFactor| ≤ cfg.minUnitSize
  · rw [if_pos h1, if_pos h1]
    by_cases h2 : |v| < cfg.minUnitSize
    · simp [h2]
    · have hv : v ≠ 0 := by
        intro h0
        exact h1.1 (by simp [h0])
      by_cases h3 : v < 0
      · simp [h2, h3, qSign]
      · simp [h2, h3, hv, qSign]
  · rw [if_neg h1, if_neg h1]
    rfl

/-- Witness for C1: the default configuration converts `10px` by the
scale-or-clamp rule, yielding `0.41667 rem`. -/
theorem sourceUnit_follows_scaleOrClamp_witness :
    extractedUnit ⟨["px"], ""⟩ = defaultConfig.unit ∧
    parseValueObject defaultConfig 10 ⟨["px"], ""⟩ = scaleOrClampSpec defaultConfig 10 ∧
    scaleOrClampSpec defaultConfig 10 = ⟨41667 / 100000, "rem"⟩ :=
  ⟨rfl, sourceUnit_follows_scaleOrClamp defaultConfig 10 ⟨["px"], ""⟩ rfl, by decide⟩

/-- C2: with the default configuration, the string-tokenization rule maps
`"10px solid red"` to `"0.41667rem solid red"`: the numeric token is
scaled, `"solid"` and `"red"` pass through verbatim, and the order is kept
with single-space joins — both as the bare token scan and through
`processRuleNode` on a declaration value. -/
theorem string_roundTrip_default :
    parseString defaultConfig "10px solid red" none = some "0.41667rem solid red" ∧
    processRuleNode defaultConfig "border" (.mk none (.str "10px solid red") none)
      = .mk none (.str "0.41667rem solid red") none :=
  ⟨by decide, rfl⟩

/-- C3 counterexample: in the comma-group path a whitespace-only value
(one segment, no tokens) is not left unchanged — the `undefined` returned
by `parseString` is coerced into the string `"undefined"` and stored. -/
theorem csvPath_noToken_changes_value :
    tokenize " " = [] ∧
    processRuleNode defaultConfig "background" (.mk none (.str " ") none)
      = .mk none (.str "undefined") none ∧
    (" " : String) ≠ "undefined" :=
  ⟨rfl, rfl, by decide⟩

/-- C3 amended: in the whole-text path (a property outside the comma-group
set), a scan yielding no tokens leaves the declaration value unchanged;
in the comma-group path a no-token segment instead contributes the string
`"undefined"`. -/
theorem wholeText_noToken_leaves_value (cfg : Config) (pn s : String)
    (h1 : pn ∉ csvProps) (h2 : tokenize s = []) :
    processRuleNode cfg pn (.mk none (.str s) none) = .mk none (.str s) none := by
  simp only [processRuleNode, processRuleNodeF]
  simp [processStringValue, h1, parseString, h2]

/-- Witness for the amended C3: a whitespace-only `color` value is left
unchanged. -/
theorem wholeText_noToken_leaves_value_witness :
    "color" ∉ csvProps ∧ tokenize " " = [] ∧
    processRuleNode defaultConfig "color" (.mk none (.str " ") none)
      = .mk none (.str " ") none :=
  ⟨by decide, rfl, wholeText_noToken_leaves_value defaultConfig "color" " " (by decide) rfl⟩

/-- C4 counterexample: the comma-group value `"10px,"` has segments
`["10px", ""]`; the empty segment is not converted independently — it falls
back to tokenizing the whole raw value, producing
`"0.41667rem, 10px,"` instead of the `"0.41667rem, "` that independent
segment conversion prescribes. -/
theorem csvSegments_not_independent :
    processRuleNode defaultConfig "background" (.mk none (.str "10px,") none)
      = .mk none (.str "0.41667rem, 10px,") none ∧
    csvIndependentSpec defaultConfig "10px," = "0.41667rem, " ∧
    ("0.41667rem, 10px," : String) ≠ "0.41667rem, " :=
  ⟨rfl, by decide, by decide⟩

/-- C4 amended: for a comma-group property whose raw string value splits
into segments that are all nonempty, each segment is tokenized and
converted independently and the converted segments are rejoined with
`", "` in their original order (an empty segment would instead fall back to
tokenizing the entire raw value; a no-token segment contributes
`"undefined"`). -/
theorem csvPath_nonempty_segments_join (cfg : Config) (pn s : String)
    (h1 : pn ∈ csvProps) (h2 : ∀ seg ∈ splitComma s, seg ≠ "") :
    processRuleNode cfg pn (.mk none (.str s) none)
      = .mk none (.str (joinSep ", " ((splitComma s).map
          (fun seg => (parseString cfg seg (some seg)).getD "undefined")))) none := by
  simp only [processRuleNode, processRuleNodeF]
  rw [processStringValue, if_pos h1]
  have hfold : (splitComma s).foldl
      (fun a seg => a ++ (if a = "" then "" else ", ") ++
        ((parseString cfg s (some seg)).getD "undefined")) ""
      = (splitComma s).foldl
      (fun a seg => a ++ (if a = "" then "" else ", ") ++
        ((parseString cfg seg (some seg)).getD "undefined")) "" := by
    apply List.foldl_ext
    intro a seg hseg
    rw [parseString_indep s seg (h2 seg hseg)]
  rw [hfold]
  obtain ⟨x, t, hxt⟩ := List.exists_cons_of_ne_nil (splitComma_ne_nil s)
  rw [hxt, csv_foldl_eq_joinSep _ (fun seg => parseString_getD_ne_empty cfg seg (some seg)),
    if_neg]
  rw [List.map_cons]
  exact joinSep_cons_ne_empty _ _ (parseString_getD_ne_empty cfg x (some x))

/-- Witness for the amended C4: the spec's own example
`background-position: "10px 20px, 5px 5px"` converts each comma segment
independently and rejoins with `", "`. -/
theorem csvPath_nonempty_segments_join_witness :
    "background-position" ∈ csvProps ∧
    (∀ seg ∈ splitComma "10px 20px, 5px 5px", seg ≠ "") ∧
    processRuleNode defaultConfig "background-position"
        (.mk none (.str "10px 20px, 5px 5px") none)
      = .mk none (.str (joinSep ", " ((splitComma "10px 20px, 5px 5px").map
          (fun seg => (parseString defaultConfig seg (some seg)).getD "undefined")))) none ∧
    joinSep ", " ((splitComma "10px 20px, 5px 5px").map
        (fun seg => (parseString defaultConfig seg (some seg)).getD "undefined"))
      = "0.41667rem 0.83333rem, 0.20833rem 0.20833rem" :=
  ⟨by decide, by decide,
    csvPath_nonempty_segments_join defaultConfig "background-position" "10px 20px, 5px 5px"
      (by decide) (by decide), by decide⟩

/-- C5: for every number `v`, converting the scalar `(v, absoluteUnit)`
returns the magnitude unchanged with the unit relabelled to the configured
source unit (stated for configurations whose source and absolute units are
distinct; the source checks the source unit first, so a configuration
equating the two would shadow the absolute branch). -/
theorem absolute_unit_passthrough (cfg : Config) (v : ℚ) (un : UnitNode)
    (h1 : extractedUnit un = cfg.absoluteUnit) (h2 : cfg.unit ≠ cfg.absoluteUnit) :
    parseValueObject cfg v un = ⟨v, cfg.unit⟩ := by
  unfold parseValueObject
  rw [h1, if_neg (fun he => h2 he.symm), if_pos rfl]

/-- Witness for C5: `7 apx` becomes `7 px` under the default
configuration. -/
theorem absolute_unit_passthrough_witness :
    defaultConfig.unit ≠ defaultConfig.absoluteUnit ∧
    parseValueObject defaultConfig 7 ⟨["apx"], ""⟩ = ⟨7, "px"⟩ :=
  ⟨by decide, absolute_unit_passthrough defaultConfig 7 ⟨["apx"], ""⟩ rfl (by decide)⟩

/-- C6: converting `(0, unit)` with the configured source unit always takes
the scaling branch — the clamp condition fails because the scaled magnitude
is zero — and yields `(0, riUnit)` (the positivity of `baseSize` keeps the
source's arithmetic finite; with `baseSize = 0` the JavaScript code would
produce `NaN`, outside the rational model). -/
theorem zero_takes_scaling_branch (cfg : Config) (un : UnitNode)
    (h1 : extractedUnit un = cfg.unit) (_h2 : 0 < cfg.baseSize) :
    ¬(|(0 : ℚ) * cfg.minScaleFactor| ≠ 0 ∧
        |(0 : ℚ) * cfg.minScaleFactor| ≤ cfg.minUnitSize) ∧
    parseValueObject cfg 0 un = ⟨0, cfg.riUnit⟩ := by
  constructor
  · simp
  · unfold parseValueObject
    rw [h1, if_pos rfl]
    have h0 : convertValue cfg 0 = 0 := by
      unfold convertValue toFixedRound
      rw [zero_div, abs_zero, zero_mul, zero_add]
      have h3 : ratFloor ((1 : ℚ) / 2) = 0 := by decide
      rw [h3]
      simp
    rw [if_neg (by simp), h0]

/-- Witness for C6: `0 px` becomes `0 rem` under the default
configuration. -/
theorem zero_takes_scaling_branch_witness :
    (0 : ℚ) < defaultConfig.baseSize ∧
    parseValueObject defaultConfig 0 ⟨["px"], ""⟩ = ⟨0, "rem"⟩ :=
  ⟨by decide, (zero_takes_scaling_branch defaultConfig ⟨["px"], ""⟩ rfl (by decide)).2⟩

/-- C7: for every value `v` and unit symbol `u` that is neither the source
unit nor the absolute unit, scalar conversion is the identity, and applying
the conversion twice equals applying it once. -/
theorem foreign_unit_identity (cfg : Config) (v : ℚ) (un : UnitNode) (u : String)
    (h1 : extractedUnit un = u) (h2 : u ≠ cfg.unit) (h3 : u ≠ cfg.absoluteUnit) :
    parseValueObject cfg v un = ⟨v, u⟩ ∧
    parseValueObject cfg (parseValueObject cfg v un).value un
      = parseValueObject cfg v un := by
  have hmain : parseValueObject cfg v un = ⟨v, u⟩ := by
    unfold parseValueObject
    rw [h1, if_neg h2, if_neg h3]
  refine ⟨hmain, ?_⟩
  rw [hmain]
  exact hmain

/-- Witness for C7: a value in `em` passes through unchanged and the
conversion is idempotent on it. -/
theorem foreign_unit_identity_witness :
    ("em" ≠ defaultConfig.unit) ∧ ("em" ≠ defaultConfig.absoluteUnit) ∧
    parseValueObject defaultConfig 3 ⟨["em"], ""⟩ = ⟨3, "em"⟩ :=
  ⟨by decide, by decide,
    (foreign_unit_identity defaultConfig 3 ⟨["em"], ""⟩ "em" rfl (by decide) (by decide)).1⟩

/-- C8: `configure` merges a partial options object — every supplied field
overwrites, every omitted field is retained — and afterwards
`minScaleFactor = minSize / baseSize`; the defaults are `baseSize = 24`,
`riUnit = "rem"`, `unit = "px"`, `absoluteUnit = "apx"`, `minUnitSize = 1`,
`minSize = 16`, `precision = 5`. -/
theorem configure_merge_and_defaults (prev : Config) (o : Options) :
    (configure prev o).baseSize = o.baseSize.getD prev.baseSize ∧
    (configure prev o).riUnit = o.riUnit.getD prev.riUnit ∧
    (configure prev o).unit = o.unit.getD prev.unit ∧
    (configure prev o).absoluteUnit = o.absoluteUnit.getD prev.absoluteUnit ∧
    (configure prev o).minUnitSize = o.minUnitSize.getD prev.minUnitSize ∧
    (configure prev o).minSize = o.minSize.getD prev.minSize ∧
    (configure prev o).precision = o.precision.getD prev.precision ∧
    (configure prev o).minScaleFactor
      = (configure prev o).minSize / (configure prev o).baseSize ∧
    defaultConfig = ⟨24, "rem", "px", "apx", 1, 16, 5, 16 / 24⟩ :=
  ⟨rfl, rfl, rfl, rfl, rfl, rfl, rfl, rfl, rfl⟩

/-- C9 counterexample: with the default configuration, `1.5 px` is clamped
to `1 px` — a clamped result whose magnitude is not the input magnitude,
contradicting the claim that clamped results keep their input magnitude
unmodified. -/
theorem clamp_modifies_magnitude :
    parseValueObject defaultConfig (3 / 2) ⟨["px"], ""⟩ = ⟨1, "px"⟩ ∧
    ((3 : ℚ) / 2 ≠ 1) :=
  ⟨by decide, by decide⟩

/-- C9 amended: every scaled value has at most `precision` fractional
digits (it is an integer multiple of `10 ^ -precision`), and rounding
happens only in the scaling branch — every other branch returns either the
input magnitude or `minUnitSize * sign(value)`, both unrounded. -/
theorem precision_only_in_scaling (cfg : Config) (v : ℚ) (un : UnitNode) :
    (∃ n : ℤ, convertValue cfg v = (n : ℚ) / 10 ^ cfg.precision) ∧
    ((parseValueObject cfg v un).value = v ∨
     (parseValueObject cfg v un).value = cfg.minUnitSize * (if v < 0 then -1 else 1) ∨
     (parseValueObject cfg v un).value = convertValue cfg v) := by
  constructor
  · refine ⟨(if v / cfg.baseSize < 0 then -1 else 1)
      * ratFloor (|v / cfg.baseSize| * 10 ^ cfg.precision + 1 / 2), ?_⟩
    unfold convertValue toFixedRound
    by_cases hx : v / cfg.baseSize < 0 <;> simp [hx]
  · unfold parseValueObject
    dsimp only
    split
    · split
      · dsimp only
        split
        · exact Or.inl rfl
        · exact Or.inr (Or.inl rfl)
      · exact Or.inr (Or.inr rfl)
    · split
      · exact Or.inl rfl
      · exact Or.inl rfl

/-- C10: a declaration whose inline flag is set is returned with its value
subtree, property name and every other field untouched. -/
theorem inline_declaration_untouched (cfg : Config) (d : Declaration)
    (h : d.inline = true) : visitDeclaration cfg d = d := by
  unfold visitDeclaration
  rw [if_pos h]

/-- Witness for C10: an inline `width` declaration is returned unchanged. -/
theorem inline_declaration_untouched_witness :
    visitDeclaration defaultConfig ⟨"width", true, .mk none (.num 10) none⟩
      = ⟨"width", true, .mk none (.num 10) none⟩ :=
  inline_declaration_untouched defaultConfig ⟨"width", true, .mk none (.num 10) none⟩ rfl

end RIPlugin
